import Mathlib

/-!
Shallow embedding of the casper action capture/replay subsystem
(`src/casper-core/src/actions.rs`) and the relevant dispatcher handlers
(`src/casper-daemon/src/main.rs`), with theorems about the recorder,
player, library and persistence behaviour.

Modelling conventions:
- `std::time::Instant` is modelled as a `Nat` timestamp in milliseconds;
  each operation that reads the clock takes the current instant as an
  explicit argument.  `duration_since(..).as_millis()` becomes truncated
  natural subtraction, which matches the saturating behaviour of the
  monotonic clock (`now >= last` always holds for a monotonic clock).
- Rust methods that mutate `&mut self` and return `Result<T, String>` are
  modelled as functions `State -> (Except String T) × State`, returning
  the (possibly mutated) state alongside the result.
- `chrono::Utc::now().to_rfc3339()` is a wall-clock read; constructors
  that call it take the produced timestamp string as an argument.
- The file system is modelled as `String -> Option Json` for single-file
  save/load, and a directory listing for `load_all`.
-/

namespace Casper

/-- The closed set of recordable actions (`enum Action`). -/
inductive Action where
  | MoveMouse (x y : Int)
  | ClickMouse (button : String)
  | MouseDown (button : String)
  | MouseUp (button : String)
  | Scroll (amount : Int) (direction : String)
  | TypeText (text : String)
  | PressKey (key : String)
  | KeyDown (key : String)
  | KeyUp (key : String)
  | RunCommand (command : String)
  | Wait (milliseconds : Nat)
  | LaunchApp (app_name : String)
  | FocusWindow (window_pattern : String)
  | ShowNotification (summary : String) (body : String)
  | Speak (text : String)
  deriving DecidableEq, Repr

/-- Rust `struct ActionWithTimestamp { action, delay_ms }`. -/
structure ActionWithTimestamp where
  action : Action
  delay_ms : Nat
  deriving DecidableEq, Repr

/-- Rust `struct ActionSequence { name, description, actions, created_at, tags }`. -/
structure ActionSequence where
  name : String
  description : String
  actions : List ActionWithTimestamp
  created_at : String
  tags : List String
  deriving DecidableEq, Repr

/-- Rust `ActionSequence::new` (the `created_at` wall-clock read is an argument). -/
def ActionSequence.new (name description created_at : String) : ActionSequence :=
  { name := name, description := description, actions := [],
    created_at := created_at, tags := [] }

/-- Rust `ActionSequence::add_action`: pushes the timed action at the end. -/
def ActionSequence.add_action (s : ActionSequence) (action : Action)
    (delay_ms : Nat) : ActionSequence :=
  { s with actions := s.actions ++ [⟨action, delay_ms⟩] }

/-- Rust `ActionSequence::add_tag`: pushes the tag unless already present. -/
def ActionSequence.add_tag (s : ActionSequence) (tag : String) : ActionSequence :=
  if s.tags.contains tag then s else { s with tags := s.tags ++ [tag] }

/-- Rust `struct ActionRecorder` (the monotonic instant is a `Nat`). -/
structure ActionRecorder where
  current_sequence : Option ActionSequence
  is_recording : Bool
  last_action_time : Option Nat
  deriving DecidableEq, Repr

/-- Rust `ActionRecorder::new`. -/
def ActionRecorder.new : ActionRecorder :=
  { current_sequence := none, is_recording := false, last_action_time := none }

/-- Rust `ActionRecorder::start_recording`; `created_at` and `now` are the
wall-clock and monotonic-clock reads made inside the method. -/
def ActionRecorder.start_recording (r : ActionRecorder)
    (name description created_at : String) (now : Nat) :
    Except String Unit × ActionRecorder :=
  if r.is_recording then
    (Except.error "Already recording", r)
  else
    (Except.ok (),
      { current_sequence := some (ActionSequence.new name description created_at),
        is_recording := true,
        last_action_time := some now })

/-- Rust `ActionRecorder::stop_recording`: clears the recording state and
returns (takes) the accumulated sequence. -/
def ActionRecorder.stop_recording (r : ActionRecorder) :
    Except String ActionSequence × ActionRecorder :=
  if !r.is_recording then
    (Except.error "Not currently recording", r)
  else
    match r.current_sequence with
    | some seq =>
        (Except.ok seq,
          { current_sequence := none, is_recording := false, last_action_time := none })
    | none =>
        (Except.error "No sequence to save",
          { current_sequence := none, is_recording := false, last_action_time := none })

/-- Rust `ActionRecorder::record_action`: computes the delay from the previous
recorded instant (0 if the baseline is missing), resets the baseline and
appends to the live sequence.  Note that in the source the baseline is
already advanced before the `current_sequence` check, which the `r1`
intermediate state reproduces. -/
def ActionRecorder.record_action (r : ActionRecorder) (action : Action)
    (now : Nat) : Except String Unit × ActionRecorder :=
  if !r.is_recording then
    (Except.error "Not currently recording", r)
  else
    let p : Nat × ActionRecorder :=
      match r.last_action_time with
      | some last => (now - last, { r with last_action_time := some now })
      | none => (0, r)
    let delay_ms := p.1
    let r1 := p.2
    match r1.current_sequence with
    | some seq =>
        (Except.ok (), { r1 with current_sequence := some (seq.add_action action delay_ms) })
    | none => (Except.error "No active sequence", r1)

/-- Folds `record_action` over a list of (action, instant) events,
collecting every call's result. -/
def ActionRecorder.recordAll (r : ActionRecorder) :
    List (Action × Nat) → List (Except String Unit) × ActionRecorder
  | [] => ([], r)
  | (a, t) :: rest =>
    let p := r.record_action a t
    let q := p.2.recordAll rest
    (p.1 :: q.1, q.2)

/-- The timed actions produced by recording the events `l` starting from
baseline instant `t0`: each delay is the gap to the previous event. -/
def delayedActions (t0 : Nat) : List (Action × Nat) → List ActionWithTimestamp
  | [] => []
  | (a, t) :: rest => ⟨a, t - t0⟩ :: delayedActions t rest

/-- The baseline instant after recording the events `l` from baseline `t0`. -/
def lastInstant (t0 : Nat) : List (Action × Nat) → Nat
  | [] => t0
  | (_, t) :: rest => lastInstant t rest

/-- Rust `struct ActionPlayer`. -/
structure ActionPlayer where
  current_sequence : Option ActionSequence
  current_index : Nat
  is_playing : Bool
  deriving DecidableEq, Repr

/-- Rust `ActionPlayer::new`. -/
def ActionPlayer.new : ActionPlayer :=
  { current_sequence := none, current_index := 0, is_playing := false }

/-- Rust `ActionPlayer::load_sequence`: replaces the sequence, resets the
cursor, stops playback. -/
def ActionPlayer.load_sequence (_p : ActionPlayer) (sequence : ActionSequence) :
    ActionPlayer :=
  { current_sequence := some sequence, current_index := 0, is_playing := false }

/-- Rust `ActionPlayer::start_playback`: fails if nothing is loaded, otherwise
starts playing from index 0. -/
def ActionPlayer.start_playback (p : ActionPlayer) :
    Except String Unit × ActionPlayer :=
  if p.current_sequence.isNone then
    (Except.error "No sequence loaded", p)
  else
    (Except.ok (), { p with is_playing := true, current_index := 0 })

/-- Rust `ActionPlayer::stop_playback`. -/
def ActionPlayer.stop_playback (p : ActionPlayer) : ActionPlayer :=
  { p with is_playing := false, current_index := 0 }

/-- Rust `ActionPlayer::next_action`: yields the action under the cursor and
advances it; at the end of the sequence stops playing and yields nothing. -/
def ActionPlayer.next_action (p : ActionPlayer) :
    Option ActionWithTimestamp × ActionPlayer :=
  if !p.is_playing then
    (none, p)
  else
    match p.current_sequence with
    | some seq =>
        if h : p.current_index < seq.actions.length then
          (some (seq.actions.get ⟨p.current_index, h⟩),
            { p with current_index := p.current_index + 1 })
        else
          (none, { p with is_playing := false })
    | none => (none, p)

/-- Rust `ActionPlayer::get_progress`. -/
def ActionPlayer.get_progress (p : ActionPlayer) : Nat × Nat :=
  match p.current_sequence with
  | some seq => (p.current_index, seq.actions.length)
  | none => (0, 0)

/-- Runs `next_action` a given number of times, collecting each yield. -/
def ActionPlayer.next_actions (p : ActionPlayer) :
    Nat → List (Option ActionWithTimestamp) × ActionPlayer
  | 0 => ([], p)
  | Nat.succ k =>
    let q := p.next_action
    let rest := q.2.next_actions k
    (q.1 :: rest.1, rest.2)

/-- Rust `struct ActionLibrary`. -/
structure ActionLibrary where
  sequences : List ActionSequence
  library_path : String
  deriving DecidableEq, Repr

/-- Rust `ActionLibrary::new`. -/
def ActionLibrary.new (library_path : String) : ActionLibrary :=
  { sequences := [], library_path := library_path }

/-- Rust `ActionLibrary::add_sequence`: appends, never deduplicates. -/
def ActionLibrary.add_sequence (lib : ActionLibrary) (sequence : ActionSequence) :
    ActionLibrary :=
  { lib with sequences := lib.sequences ++ [sequence] }

/-- Rust `ActionLibrary::get_sequence`: first element with that exact name. -/
def ActionLibrary.get_sequence (lib : ActionLibrary) (name : String) :
    Option ActionSequence :=
  lib.sequences.find? (fun s => s.name == name)

/-- Rust `ActionLibrary::list_sequences`. -/
def ActionLibrary.list_sequences (lib : ActionLibrary) : List String :=
  lib.sequences.map (fun s => s.name)

/-- Rust `ActionLibrary::search_by_tag`. -/
def ActionLibrary.search_by_tag (lib : ActionLibrary) (tag : String) :
    List ActionSequence :=
  lib.sequences.filter (fun s => s.tags.contains tag)

/-- One entry produced by `fs::read_dir` over the library directory, as
`load_all` inspects it: whether its extension is `json`, and the outcome
of `ActionSequence::load_from_file` on it (`none` models a file whose
contents fail to read or to deserialize). -/
structure DirEntry where
  is_json : Bool
  parsed : Option ActionSequence
  deriving DecidableEq, Repr

/-- Rust `ActionLibrary::load_all`.  The directory is `none` when
`library_path` does not exist, otherwise `some entries`.  The source
returns `Ok(())` early when the path does not exist, WITHOUT clearing the
in-memory collection; otherwise it clears and re-populates from every
`.json` entry that parses, skipping entries that fail to parse. -/
def ActionLibrary.load_all (lib : ActionLibrary) (dir : Option (List DirEntry)) :
    Except String Unit × ActionLibrary :=
  match dir with
  | none => (Except.ok (), lib)
  | some entries =>
      (Except.ok (),
        { lib with sequences :=
            entries.filterMap (fun e => if e.is_json then e.parsed else none) })

/-- Rust `ActionLibrary::delete_sequence` (in-memory part; the file removal is
I/O whose success leaves the collection unchanged). -/
def ActionLibrary.delete_sequence (lib : ActionLibrary) (name : String) :
    Except String Unit × ActionLibrary :=
  (Except.ok (), { lib with sequences := lib.sequences.filter (fun s => s.name != name) })

/-- JSON values, at the tree level (`serde_json::Value`; string rendering
and parsing are mutually inverse library behaviour and are not remodelled). -/
inductive Json where
  | null
  | bool (b : Bool)
  | num (n : Int)
  | str (s : String)
  | arr (elems : List Json)
  | obj (fields : List (String × Json))

/-- Field lookup in a JSON object, as serde resolves struct fields by name. -/
def Json.getField (j : Json) (key : String) : Option Json :=
  match j with
  | .obj fields => fields.lookup key
  | _ => none

def Json.asStr : Json → Option String
  | .str s => some s
  | _ => none

def Json.asInt : Json → Option Int
  | .num n => some n
  | _ => none

/-- Deserializing an unsigned integer: a negative number is rejected. -/
def Json.asNat : Json → Option Nat
  | .num n => if n < 0 then none else some n.toNat
  | _ => none

/-- Serde serialization of `Action` under `#[serde(tag = "type")]`:
an internally tagged object whose `type` field names the variant. -/
def Action.toJson : Action → Json
  | .MoveMouse x y => .obj [("type", .str "MoveMouse"), ("x", .num x), ("y", .num y)]
  | .ClickMouse b => .obj [("type", .str "ClickMouse"), ("button", .str b)]
  | .MouseDown b => .obj [("type", .str "MouseDown"), ("button", .str b)]
  | .MouseUp b => .obj [("type", .str "MouseUp"), ("button", .str b)]
  | .Scroll amount direction =>
      .obj [("type", .str "Scroll"), ("amount", .num amount), ("direction", .str direction)]
  | .TypeText t => .obj [("type", .str "TypeText"), ("text", .str t)]
  | .PressKey k => .obj [("type", .str "PressKey"), ("key", .str k)]
  | .KeyDown k => .obj [("type", .str "KeyDown"), ("key", .str k)]
  | .KeyUp k => .obj [("type", .str "KeyUp"), ("key", .str k)]
  | .RunCommand c => .obj [("type", .str "RunCommand"), ("command", .str c)]
  | .Wait ms => .obj [("type", .str "Wait"), ("milliseconds", .num (Int.ofNat ms))]
  | .LaunchApp a => .obj [("type", .str "LaunchApp"), ("app_name", .str a)]
  | .FocusWindow w => .obj [("type", .str "FocusWindow"), ("window_pattern", .str w)]
  | .ShowNotification s b =>
      .obj [("type", .str "ShowNotification"), ("summary", .str s), ("body", .str b)]
  | .Speak t => .obj [("type", .str "Speak"), ("text", .str t)]

/-- Serde deserialization of `Action`: dispatch on the `type` tag, then
read each variant's fields by name; an unknown tag fails. -/
def Action.fromJson (j : Json) : Option Action := do
  let tag ← (j.getField "type").bind Json.asStr
  match tag with
  | "MoveMouse" => do
      let x ← (j.getField "x").bind Json.asInt
      let y ← (j.getField "y").bind Json.asInt
      pure (.MoveMouse x y)
  | "ClickMouse" => do
      let b ← (j.getField "button").bind Json.asStr
      pure (.ClickMouse b)
  | "MouseDown" => do
      let b ← (j.getField "button").bind Json.asStr
      pure (.MouseDown b)
  | "MouseUp" => do
      let b ← (j.getField "button").bind Json.asStr
      pure (.MouseUp b)
  | "Scroll" => do
      let amount ← (j.getField "amount").bind Json.asInt
      let direction ← (j.getField "direction").bind Json.asStr
      pure (.Scroll amount direction)
  | "TypeText" => do
      let t ← (j.getField "text").bind Json.asStr
      pure (.TypeText t)
  | "PressKey" => do
      let k ← (j.getField "key").bind Json.asStr
      pure (.PressKey k)
  | "KeyDown" => do
      let k ← (j.getField "key").bind Json.asStr
      pure (.KeyDown k)
  | "KeyUp" => do
      let k ← (j.getField "key").bind Json.asStr
      pure (.KeyUp k)
  | "RunCommand" => do
      let c ← (j.getField "command").bind Json.asStr
      pure (.RunCommand c)
  | "Wait" => do
      let ms ← (j.getField "milliseconds").bind Json.asNat
      pure (.Wait ms)
  | "LaunchApp" => do
      let a ← (j.getField "app_name").bind Json.asStr
      pure (.LaunchApp a)
  | "FocusWindow" => do
      let w ← (j.getField "window_pattern").bind Json.asStr
      pure (.FocusWindow w)
  | "ShowNotification" => do
      let s ← (j.getField "summary").bind Json.asStr
      let b ← (j.getField "body").bind Json.asStr
      pure (.ShowNotification s b)
  | "Speak" => do
      let t ← (j.getField "text").bind Json.asStr
      pure (.Speak t)
  | _ => none

/-- Serde serialization of `ActionWithTimestamp`. -/
def ActionWithTimestamp.toJson (a : ActionWithTimestamp) : Json :=
  .obj [("action", a.action.toJson), ("delay_ms", .num (Int.ofNat a.delay_ms))]

/-- Serde deserialization of `ActionWithTimestamp`. -/
def ActionWithTimestamp.fromJson (j : Json) : Option ActionWithTimestamp := do
  let action ← (j.getField "action").bind Action.fromJson
  let delay_ms ← (j.getField "delay_ms").bind Json.asNat
  pure ⟨action, delay_ms⟩

/-- Deserializing a JSON sequence element by element, in order, failing
on the first element that fails (serde's `Vec` visitor). -/
def traverseOption {α β : Type} (f : α → Option β) : List α → Option (List β)
  | [] => some []
  | x :: xs => do
    let y ← f x
    let ys ← traverseOption f xs
    pure (y :: ys)

/-- Serde serialization of `ActionSequence` (plain struct, field order as
declared). -/
def ActionSequence.toJson (s : ActionSequence) : Json :=
  .obj [("name", .str s.name),
        ("description", .str s.description),
        ("actions", .arr (s.actions.map ActionWithTimestamp.toJson)),
        ("created_at", .str s.created_at),
        ("tags", .arr (s.tags.map Json.str))]

def Json.asArr : Json → Option (List Json)
  | .arr elems => some elems
  | _ => none

/-- Serde deserialization of `ActionSequence`. -/
def ActionSequence.fromJson (j : Json) : Option ActionSequence := do
  let name ← (j.getField "name").bind Json.asStr
  let description ← (j.getField "description").bind Json.asStr
  let actionsJson ← (j.getField "actions").bind Json.asArr
  let actions ← traverseOption ActionWithTimestamp.fromJson actionsJson
  let created_at ← (j.getField "created_at").bind Json.asStr
  let tagsJson ← (j.getField "tags").bind Json.asArr
  let tags ← traverseOption Json.asStr tagsJson
  pure { name := name, description := description, actions := actions,
         created_at := created_at, tags := tags }

/-- The file system as seen by single-file save/load: path to stored
JSON document. -/
def FileStore : Type := String → Option Json

/-- Rust `ActionSequence::save_to_file`: serializes (which cannot fail for
this type) and writes the document at `path`; a successful write stores
exactly the serialized content. -/
def ActionSequence.save_to_file (s : ActionSequence) (path : String)
    (fs : FileStore) : Except String Unit × FileStore :=
  (Except.ok (), fun p => if p = path then some s.toJson else fs p)

/-- Rust `ActionSequence::load_from_file`: reads the document at `path` and
deserializes it; a missing file is a read error, an undeserializable
document a format error. -/
def ActionSequence.load_from_file (path : String) (fs : FileStore) :
    Except String ActionSequence :=
  match fs path with
  | none => Except.error "Failed to read file"
  | some j =>
      match ActionSequence.fromJson j with
      | some s => Except.ok s
      | none => Except.error "Failed to deserialize"

/-- The daemon's shared aggregate (`struct DaemonState` in
`casper-daemon/src/main.rs`), as the recording/playback handlers use it. -/
structure DaemonState where
  recorder : ActionRecorder
  player : ActionPlayer
  library : ActionLibrary
  deriving Repr

/-- The `"stop_recording"` branch of `handle_request`: stops the
recorder; on success adds the (cloned) sequence to the library, flushes
the library to disk discarding the result (`let _ = ... save_all()`, file
I/O that does not touch the in-memory collection), and answers with the
sequence's name; on failure answers with the error message. -/
def handle_stop_recording (st : DaemonState) : Json × DaemonState :=
  match st.recorder.stop_recording with
  | (Except.ok sequence, r) =>
      (Json.obj [("status", .str "success"),
                 ("message", .str "Recording stopped"),
                 ("sequence", .str sequence.name)],
       { st with recorder := r, library := st.library.add_sequence sequence })
  | (Except.error e, r) =>
      (Json.obj [("status", .str "error"), ("message", .str e)],
       { st with recorder := r })

/-- The `"list_sequences"` branch of `handle_request`. -/
def handle_list_sequences (st : DaemonState) : Json × DaemonState :=
  (Json.obj [("status", .str "success"),
             ("sequences", .arr (st.library.list_sequences.map Json.str))],
   st)

/-! ### Helper lemmas -/

theorem delayedActions_map_action (t0 : Nat) (l : List (Action × Nat)) :
    (delayedActions t0 l).map (fun aw => aw.action) = l.map (fun e => e.1) := by
  induction l generalizing t0 with
  | nil => simp [delayedActions]
  | cons p rest ih =>
    obtain ⟨a, t⟩ := p
    simp [delayedActions, ih]

theorem delayedActions_length (t0 : Nat) (l : List (Action × Nat)) :
    (delayedActions t0 l).length = l.length := by
  induction l generalizing t0 with
  | nil => rfl
  | cons p rest ih =>
    obtain ⟨a, t⟩ := p
    simp [delayedActions, ih]

/-- Behaviour of `recordAll` from a live recording state: every call
succeeds, the recorded actions are appended in order with delays measured
from the previous event, and the baseline ends at the last event's instant. -/
theorem recordAll_recording (l : List (Action × Nat)) (seq : ActionSequence) (t0 : Nat) :
    ActionRecorder.recordAll
      { current_sequence := some seq, is_recording := true, last_action_time := some t0 } l =
    (l.map (fun _ => Except.ok ()),
      { current_sequence := some { seq with actions := seq.actions ++ delayedActions t0 l },
        is_recording := true,
        last_action_time := some (lastInstant t0 l) }) := by
  induction l generalizing seq t0 with
  | nil => simp [ActionRecorder.recordAll, delayedActions, lastInstant]
  | cons p rest ih =>
    obtain ⟨a, t⟩ := p
    simp only [ActionRecorder.recordAll, ActionRecorder.record_action,
      ActionSequence.add_action, delayedActions, lastInstant]
    simp [ih, List.append_assoc]

/-! ### C1: recorder lifecycle -/

/-- C1. `start_recording` fails with the AlreadyRecording error iff the
recorder is already recording; `stop_recording` and `record_action` fail
with the NotRecording error iff it is not recording; and a full
start → record×N → stop cycle returns a sequence holding exactly the N
recorded actions in order. -/
theorem recorder_lifecycle :
    (∀ (r : ActionRecorder) (n d c : String) (t : Nat),
        (r.start_recording n d c t).1 = Except.error "Already recording" ↔
          r.is_recording = true) ∧
    (∀ r : ActionRecorder,
        r.stop_recording.1 = Except.error "Not currently recording" ↔
          r.is_recording = false) ∧
    (∀ (r : ActionRecorder) (a : Action) (t : Nat),
        (r.record_action a t).1 = Except.error "Not currently recording" ↔
          r.is_recording = false) ∧
    (∀ (r : ActionRecorder) (n d c : String) (t : Nat) (l : List (Action × Nat)),
        r.is_recording = false →
        (r.start_recording n d c t).1 = Except.ok () ∧
        (∀ res ∈ ((r.start_recording n d c t).2.recordAll l).1, res = Except.ok ()) ∧
        ∃ seq,
          ((r.start_recording n d c t).2.recordAll l).2.stop_recording.1 =
            Except.ok seq ∧
          seq.actions.map (fun aw => aw.action) = l.map (fun e => e.1) ∧
          seq.actions.length = l.length) := by
  refine ⟨?_, ?_, ?_, ?_⟩
  · intro r n d c t
    cases hr : r.is_recording <;> simp [ActionRecorder.start_recording, hr]
  · intro r
    cases hr : r.is_recording <;>
      cases hs : r.current_sequence <;>
      simp [ActionRecorder.stop_recording, hr, hs]
  · intro r a t
    cases hr : r.is_recording <;>
      cases hl : r.last_action_time <;>
      cases hs : r.current_sequence <;>
      simp [ActionRecorder.record_action, hr, hl, hs]
  · intro r n d c t l hr
    have hstart : r.start_recording n d c t =
        (Except.ok (),
          { current_sequence := some (ActionSequence.new n d c),
            is_recording := true, last_action_time := some t }) := by
      simp [ActionRecorder.start_recording, hr]
    refine ⟨by rw [hstart], ?_, ?_⟩
    · intro res hres
      rw [hstart] at hres
      simp only [recordAll_recording] at hres
      obtain ⟨e, _, he⟩ := List.mem_map.mp hres
      exact he.symm
    · rw [hstart]
      simp only [recordAll_recording]
      refine ⟨{ ActionSequence.new n d c with
                actions := (ActionSequence.new n d c).actions ++ delayedActions t l }, ?_, ?_, ?_⟩
      · simp [ActionRecorder.stop_recording]
      · simp [ActionSequence.new, delayedActions_map_action]
      · simp [ActionSequence.new, delayedActions_length]

/-- Witness for C1 at a concrete two-action recording session. -/
theorem recorder_lifecycle_witness :
    ActionRecorder.new.is_recording = false ∧
    ((ActionRecorder.new.start_recording "demo" "" "2024-01-01" 0).1 = Except.ok () ∧
     (∀ res ∈ ((ActionRecorder.new.start_recording "demo" "" "2024-01-01" 0).2.recordAll
          [(Action.MoveMouse 10 20, 30), (Action.ClickMouse "left", 80)]).1,
        res = Except.ok ()) ∧
     ∃ seq,
       ((ActionRecorder.new.start_recording "demo" "" "2024-01-01" 0).2.recordAll
          [(Action.MoveMouse 10 20, 30), (Action.ClickMouse "left", 80)]).2.stop_recording.1 =
         Except.ok seq ∧
       seq.actions.map (fun aw => aw.action) =
         [(Action.MoveMouse 10 20, 30), (Action.ClickMouse "left", 80)].map (fun e => e.1) ∧
       seq.actions.length =
         [(Action.MoveMouse 10 20, (30 : Nat)), (Action.ClickMouse "left", 80)].length) :=
  ⟨rfl, recorder_lifecycle.2.2.2 ActionRecorder.new "demo" "" "2024-01-01" 0
      [(Action.MoveMouse 10 20, 30), (Action.ClickMouse "left", 80)] rfl⟩

/-! ### C2: player exhaustion -/

/-- Running `next_action` `n` more times from a playing state whose
cursor is at `i`, with `i + n` within bounds: each call yields the next
action and the cursor advances to `i + n`, still playing. -/
theorem next_actions_playing (seq : ActionSequence) (n i : Nat)
    (h : i + n ≤ seq.actions.length) :
    ActionPlayer.next_actions
      { current_sequence := some seq, current_index := i, is_playing := true } n =
    (((seq.actions.drop i).take n).map some,
      { current_sequence := some seq, current_index := i + n, is_playing := true }) := by
  induction n generalizing i with
  | zero => simp [ActionPlayer.next_actions]
  | succ k ih =>
    have hi : i < seq.actions.length := by omega
    have hik : (i + 1) + k ≤ seq.actions.length := by omega
    have hstep : ActionPlayer.next_action
        { current_sequence := some seq, current_index := i, is_playing := true } =
        (some (seq.actions.get ⟨i, hi⟩),
          { current_sequence := some seq, current_index := i + 1, is_playing := true }) := by
      simp [ActionPlayer.next_action, hi]
    have hadd : i + (k + 1) = (i + 1) + k := by omega
    have hl : (List.take (k + 1) (List.drop i seq.actions)).map some =
        some (seq.actions.get ⟨i, hi⟩) ::
          (List.take k (List.drop (i + 1) seq.actions)).map some := by
      rw [List.drop_eq_getElem_cons hi, List.take_succ_cons, List.map_cons,
        List.get_eq_getElem]
    simp only [ActionPlayer.next_actions, hstep, ih (i + 1) hik, hadd, hl]

/-- C2. After loading a sequence of length L and starting playback,
`next_action` yields all L actions in original order; the (L+1)-th call
yields nothing and flips `is_playing` to false; and `get_progress`
afterwards reports (L, L). -/
theorem player_exhaustion (p : ActionPlayer) (seq : ActionSequence) :
    (p.load_sequence seq).start_playback.1 = Except.ok () ∧
    ((p.load_sequence seq).start_playback.2.next_actions seq.actions.length).1 =
      seq.actions.map some ∧
    ((p.load_sequence seq).start_playback.2.next_actions
        seq.actions.length).2.next_action.1 = none ∧
    ((p.load_sequence seq).start_playback.2.next_actions
        seq.actions.length).2.next_action.2.is_playing = false ∧
    ((p.load_sequence seq).start_playback.2.next_actions
        seq.actions.length).2.next_action.2.get_progress =
      (seq.actions.length, seq.actions.length) := by
  have hload : (p.load_sequence seq).start_playback =
      (Except.ok (),
        { current_sequence := some seq, current_index := 0, is_playing := true }) := by
    simp [ActionPlayer.load_sequence, ActionPlayer.start_playback]
  have hrun := next_actions_playing seq seq.actions.length 0 (by omega)
  have hlast : ActionPlayer.next_action
      { current_sequence := some seq, current_index := seq.actions.length,
        is_playing := true } =
      (none,
        { current_sequence := some seq, current_index := seq.actions.length,
          is_playing := false }) := by
    simp [ActionPlayer.next_action]
  refine ⟨by rw [hload], ?_, ?_, ?_, ?_⟩ <;>
    simp [hload, hrun, hlast, ActionPlayer.get_progress, List.take_length]

/-! ### C6: player cursor invariant -/

/-- Player states reachable from `ActionPlayer::new` by any run of the
public operations (`get_progress` and `is_playing` do not mutate). -/
inductive PlayerReachable : ActionPlayer → Prop
  | new : PlayerReachable ActionPlayer.new
  | load {p : ActionPlayer} (seq : ActionSequence) :
      PlayerReachable p → PlayerReachable (p.load_sequence seq)
  | start {p : ActionPlayer} :
      PlayerReachable p → PlayerReachable p.start_playback.2
  | stop {p : ActionPlayer} :
      PlayerReachable p → PlayerReachable p.stop_playback
  | next {p : ActionPlayer} :
      PlayerReachable p → PlayerReachable p.next_action.2

/-- The spec's cursor invariant: `0 <= current_index <= len(actions)` of
the loaded sequence, and `current_index = 0` when nothing is loaded
(the lower bound is inherent to `Nat`). -/
def cursorInv (p : ActionPlayer) : Prop :=
  match p.current_sequence with
  | some seq => p.current_index ≤ seq.actions.length
  | none => p.current_index = 0

/-- C6. Every reachable player state satisfies the cursor invariant. -/
theorem player_cursor_invariant (p : ActionPlayer) (h : PlayerReachable p) :
    cursorInv p := by
  induction h with
  | new => simp [cursorInv, ActionPlayer.new]
  | load seq _ _ => simp [cursorInv, ActionPlayer.load_sequence]
  | @start p _ ih =>
    rcases hs : p.current_sequence with _ | seq
    · simpa [ActionPlayer.start_playback, hs] using ih
    · simp [ActionPlayer.start_playback, hs, cursorInv]
  | @stop p _ ih =>
    rcases hs : p.current_sequence with _ | seq <;>
      simp [ActionPlayer.stop_playback, cursorInv, hs]
  | @next p _ ih =>
    cases hb : p.is_playing
    · simpa [ActionPlayer.next_action, hb] using ih
    · rcases hs : p.current_sequence with _ | seq
      · simpa [ActionPlayer.next_action, hb, hs] using ih
      · by_cases hlt : p.current_index < seq.actions.length
        · simp [ActionPlayer.next_action, hb, hs, hlt, cursorInv]
          omega
        · simp only [cursorInv, hs] at ih
          simp [ActionPlayer.next_action, hb, hs, hlt, cursorInv, ih]

/-- A concrete one-action sequence used by witnesses. -/
def sampleSeq : ActionSequence :=
  { name := "demo", description := "sample", actions := [⟨Action.Wait 5, 0⟩],
    created_at := "2024-01-01T00:00:00Z", tags := ["t1"] }

/-- Witness for C6 at a concrete reachable state (load, start, one step). -/
theorem player_cursor_invariant_witness :
    PlayerReachable ((ActionPlayer.new.load_sequence sampleSeq).start_playback.2.next_action.2) ∧
    cursorInv ((ActionPlayer.new.load_sequence sampleSeq).start_playback.2.next_action.2) :=
  ⟨PlayerReachable.next (PlayerReachable.start (PlayerReachable.load sampleSeq PlayerReachable.new)),
   player_cursor_invariant _
     (PlayerReachable.next (PlayerReachable.start (PlayerReachable.load sampleSeq PlayerReachable.new)))⟩

/-! ### C10: recorder coherence -/

/-- Recorder states reachable from `ActionRecorder::new` by any run of
the public operations (`is_recording` does not mutate). -/
inductive RecorderReachable : ActionRecorder → Prop
  | new : RecorderReachable ActionRecorder.new
  | start {r : ActionRecorder} (n d c : String) (t : Nat) :
      RecorderReachable r → RecorderReachable (r.start_recording n d c t).2
  | stop {r : ActionRecorder} :
      RecorderReachable r → RecorderReachable r.stop_recording.2
  | record {r : ActionRecorder} (a : Action) (t : Nat) :
      RecorderReachable r → RecorderReachable (r.record_action a t).2

/-- The implicit coherence invariant: the recording flag, the live
sequence slot and the delay baseline are all set together. -/
def recorderCoherent (r : ActionRecorder) : Prop :=
  (r.is_recording = true ↔ r.current_sequence.isSome = true) ∧
  (r.is_recording = true ↔ r.last_action_time.isSome = true)

theorem recorderCoherent_of_reachable {r : ActionRecorder}
    (h : RecorderReachable r) : recorderCoherent r := by
  induction h with
  | new => simp [recorderCoherent, ActionRecorder.new]
  | @start r n d c t _ ih =>
    cases hb : r.is_recording
    · simp [ActionRecorder.start_recording, hb, recorderCoherent]
    · simpa [ActionRecorder.start_recording, hb] using ih
  | @stop r _ ih =>
    cases hb : r.is_recording
    · simpa [ActionRecorder.stop_recording, hb] using ih
    · rcases hs : r.current_sequence with _ | seq <;>
        simp [ActionRecorder.stop_recording, hb, hs, recorderCoherent]
  | @record r a t _ ih =>
    cases hb : r.is_recording
    · simpa [ActionRecorder.record_action, hb] using ih
    · obtain ⟨ih1, ih2⟩ := ih
      rw [hb] at ih1 ih2
      obtain ⟨seq, hs⟩ := Option.isSome_iff_exists.mp (ih1.mp rfl)
      obtain ⟨t0, ht⟩ := Option.isSome_iff_exists.mp (ih2.mp rfl)
      simp [ActionRecorder.record_action, hb, hs, ht, recorderCoherent]

/-- C10. On every reachable recorder state the recording flag, live
sequence and delay baseline are coherent; consequently the
"No sequence to save" branch of `stop_recording`, the
"No active sequence" branch of `record_action`, and the `delay_ms = 0`
fallback (a missing baseline while recording) are unreachable. -/
theorem recorder_coherence (r : ActionRecorder) (h : RecorderReachable r) :
    recorderCoherent r ∧
    r.stop_recording.1 ≠ Except.error "No sequence to save" ∧
    (∀ (a : Action) (t : Nat),
      (r.record_action a t).1 ≠ Except.error "No active sequence") ∧
    (r.is_recording = true → r.last_action_time.isSome = true) := by
  obtain ⟨h1, h2⟩ := recorderCoherent_of_reachable h
  refine ⟨⟨h1, h2⟩, ?_, ?_, h2.mp⟩
  · cases hb : r.is_recording
    · simp [ActionRecorder.stop_recording, hb]
    · obtain ⟨seq, hs⟩ := Option.isSome_iff_exists.mp (h1.mp hb)
      simp [ActionRecorder.stop_recording, hb, hs]
  · intro a t
    cases hb : r.is_recording
    · simp [ActionRecorder.record_action, hb]
    · obtain ⟨seq, hs⟩ := Option.isSome_iff_exists.mp (h1.mp hb)
      obtain ⟨t0, ht⟩ := Option.isSome_iff_exists.mp (h2.mp hb)
      simp [ActionRecorder.record_action, hb, hs, ht]

/-- Witness for C10 at a concrete reachable state (a started recorder
with one recorded action). -/
theorem recorder_coherence_witness :
    RecorderReachable
      ((ActionRecorder.new.start_recording "demo" "" "2024-01-01" 0).2.record_action
        (Action.TypeText "hi") 40).2 ∧
    (recorderCoherent
      ((ActionRecorder.new.start_recording "demo" "" "2024-01-01" 0).2.record_action
        (Action.TypeText "hi") 40).2 ∧
     ((ActionRecorder.new.start_recording "demo" "" "2024-01-01" 0).2.record_action
        (Action.TypeText "hi") 40).2.stop_recording.1 ≠
        Except.error "No sequence to save" ∧
     (∀ (a : Action) (t : Nat),
        (((ActionRecorder.new.start_recording "demo" "" "2024-01-01" 0).2.record_action
          (Action.TypeText "hi") 40).2.record_action a t).1 ≠
          Except.error "No active sequence") ∧
     (((ActionRecorder.new.start_recording "demo" "" "2024-01-01" 0).2.record_action
        (Action.TypeText "hi") 40).2.is_recording = true →
      ((ActionRecorder.new.start_recording "demo" "" "2024-01-01" 0).2.record_action
        (Action.TypeText "hi") 40).2.last_action_time.isSome = true)) :=
  ⟨RecorderReachable.record (Action.TypeText "hi") 40
      (RecorderReachable.start "demo" "" "2024-01-01" 0 RecorderReachable.new),
   recorder_coherence _
     (RecorderReachable.record (Action.TypeText "hi") 40
       (RecorderReachable.start "demo" "" "2024-01-01" 0 RecorderReachable.new))⟩

/-! ### C3: load_all on a missing directory -/

/-- Counterexample to C3 as stated: starting from a library whose
in-memory collection already holds a sequence, `load_all` on a missing
`library_path` succeeds but the collection is NOT empty afterwards
(the source returns `Ok(())` before the `self.sequences.clear()` line). -/
theorem load_all_missing_dir_counterexample :
    ((((ActionLibrary.new "lib").add_sequence sampleSeq).load_all none).1 =
        Except.ok ()) ∧
    ((((ActionLibrary.new "lib").add_sequence sampleSeq).load_all none).2.sequences ≠
        []) := by
  constructor
  · rfl
  · simp [ActionLibrary.new, ActionLibrary.add_sequence, ActionLibrary.load_all]

/-- C3 (amended). If `library_path` does not exist, `load_all` succeeds
and leaves the in-memory collection unchanged — in particular, a fresh
(empty) library stays empty. -/
theorem load_all_missing_dir (lib : ActionLibrary) :
    (lib.load_all none).1 = Except.ok () ∧ (lib.load_all none).2 = lib :=
  ⟨rfl, rfl⟩

/-! ### C5: load_all resilience -/

/-- C5. `load_all` over an existing directory always succeeds, and the
in-memory collection afterwards holds exactly the sequences of the
`.json` entries that parse; unparseable entries are skipped. -/
theorem load_all_resilience (lib : ActionLibrary) (entries : List DirEntry) :
    (lib.load_all (some entries)).1 = Except.ok () ∧
    ∀ s : ActionSequence,
      s ∈ (lib.load_all (some entries)).2.sequences ↔
        ∃ e ∈ entries, e.is_json = true ∧ e.parsed = some s := by
  refine ⟨rfl, ?_⟩
  intro s
  simp only [ActionLibrary.load_all, List.mem_filterMap]
  constructor
  · rintro ⟨e, he, hf⟩
    by_cases hj : e.is_json = true
    · rw [if_pos hj] at hf
      exact ⟨e, he, hj, hf⟩
    · rw [if_neg hj] at hf
      exact absurd hf (by simp)
  · rintro ⟨e, he, hj, hp⟩
    exact ⟨e, he, by rw [if_pos hj]; exact hp⟩

/-! ### C7: append without dedup, first match by name -/

/-- C7. `add_sequence` appends without deduplication; `get_sequence`
returns the first sequence with exactly the requested name in insertion
order, and nothing when no sequence has that name; in particular, after
adding two sequences with the same fresh name, the first one added is
returned. -/
theorem library_first_match :
    (∀ (lib : ActionLibrary) (s : ActionSequence),
        (lib.add_sequence s).sequences = lib.sequences ++ [s]) ∧
    (∀ (lib : ActionLibrary) (name : String),
        lib.get_sequence name = none ↔ ∀ s ∈ lib.sequences, s.name ≠ name) ∧
    (∀ (lib : ActionLibrary) (name : String) (s : ActionSequence),
        lib.get_sequence name = some s → s.name = name ∧ s ∈ lib.sequences) ∧
    (∀ (lib : ActionLibrary) (s1 s2 : ActionSequence) (name : String),
        s1.name = name → s2.name = name →
        (∀ s ∈ lib.sequences, s.name ≠ name) →
        ((lib.add_sequence s1).add_sequence s2).get_sequence name = some s1) := by
  refine ⟨?_, ?_, ?_, ?_⟩
  · intro lib s
    rfl
  · intro lib name
    simp [ActionLibrary.get_sequence, List.find?_eq_none]
  · intro lib name s hfind
    refine ⟨?_, List.mem_of_find?_eq_some hfind⟩
    have := List.find?_some hfind
    simpa using this
  · intro lib s1 s2 name h1 h2 hnone
    have hn : lib.sequences.find? (fun s => s.name == name) = none := by
      rw [List.find?_eq_none]
      intro s hs
      simpa using hnone s hs
    simp [ActionLibrary.get_sequence, ActionLibrary.add_sequence, List.find?_append,
      hn, List.find?_cons, h1]

/-- A second sequence with the same name as `sampleSeq`. -/
def sampleSeq2 : ActionSequence :=
  { name := "demo", description := "other", actions := [],
    created_at := "2024-02-02T00:00:00Z", tags := [] }

/-- Witness for C7: adding two sequences named "demo" to an empty
library, `get_sequence "demo"` returns the first. -/
theorem library_first_match_witness :
    sampleSeq.name = "demo" ∧ sampleSeq2.name = "demo" ∧
    (∀ s ∈ (ActionLibrary.new "lib").sequences, s.name ≠ "demo") ∧
    (((ActionLibrary.new "lib").add_sequence sampleSeq).add_sequence
        sampleSeq2).get_sequence "demo" = some sampleSeq :=
  ⟨rfl, rfl, by simp [ActionLibrary.new],
   library_first_match.2.2.2 (ActionLibrary.new "lib") sampleSeq sampleSeq2 "demo"
     rfl rfl (by simp [ActionLibrary.new])⟩

/-! ### C9: tag-set idempotence -/

/-- C9. `add_tag` is idempotent (adding an existing tag is a no-op), it
keeps the tag collection duplicate-free, and it only ever extends the
collection at the end, preserving first-insertion order. -/
theorem add_tag_set (s : ActionSequence) (tag : String) :
    (s.add_tag tag).add_tag tag = s.add_tag tag ∧
    (s.tags.Nodup → (s.add_tag tag).tags.Nodup) ∧
    ∃ l, (s.add_tag tag).tags = s.tags ++ l := by
  by_cases hc : tag ∈ s.tags
  · refine ⟨?_, ?_, ⟨[], ?_⟩⟩ <;> simp [ActionSequence.add_tag, hc]
  · have hmem : tag ∉ s.tags := hc
    have h1 : s.add_tag tag = { s with tags := s.tags ++ [tag] } := by
      simp [ActionSequence.add_tag, hc]
    have hc2 : (s.tags ++ [tag]).contains tag := by simp
    refine ⟨?_, ?_, ⟨[tag], by rw [h1]⟩⟩
    · rw [h1]
      simp [ActionSequence.add_tag, hc2]
    · intro hnd
      rw [h1]
      simp [List.nodup_append, hnd, hmem]

/-- Witness for C9 on `sampleSeq` with a fresh tag. -/
theorem add_tag_set_witness :
    sampleSeq.tags.Nodup ∧
    ((sampleSeq.add_tag "t2").add_tag "t2" = sampleSeq.add_tag "t2" ∧
     (sampleSeq.add_tag "t2").tags.Nodup ∧
     ∃ l, (sampleSeq.add_tag "t2").tags = sampleSeq.tags ++ l) := by
  have hn : sampleSeq.tags.Nodup := by simp [sampleSeq]
  have h := add_tag_set sampleSeq "t2"
  exact ⟨hn, h.1, h.2.1 hn, h.2.2⟩

/-! ### C4: round-trip persistence -/

theorem action_json_roundtrip (a : Action) : Action.fromJson a.toJson = some a := by
  cases a <;> rfl

theorem awt_json_roundtrip (a : ActionWithTimestamp) :
    ActionWithTimestamp.fromJson a.toJson = some a := by
  obtain ⟨act, d⟩ := a
  have hd : ¬ ((d : Int) < 0) := by omega
  simp [ActionWithTimestamp.toJson, ActionWithTimestamp.fromJson, Json.getField,
    List.lookup, Json.asNat, action_json_roundtrip, hd]

theorem traverseOption_map_eq_some {α β : Type} (f : β → Option α) (g : α → β)
    (h : ∀ a, f (g a) = some a) (l : List α) :
    traverseOption f (l.map g) = some l := by
  induction l with
  | nil => rfl
  | cons x xs ih => simp [traverseOption, h, ih]

theorem sequence_json_roundtrip (s : ActionSequence) :
    ActionSequence.fromJson s.toJson = some s := by
  obtain ⟨n, d, acts, c, tags⟩ := s
  simp [ActionSequence.toJson, ActionSequence.fromJson, Json.getField, List.lookup,
    Json.asStr, Json.asArr,
    traverseOption_map_eq_some ActionWithTimestamp.fromJson ActionWithTimestamp.toJson
      awt_json_roundtrip,
    traverseOption_map_eq_some Json.asStr Json.str (fun _ => rfl)]

/-- C4. Saving any constructed sequence to a path and loading that same
path back succeeds and returns a sequence equal to the original in every
field (name, description, ordered actions with their delays, created_at,
tags). -/
theorem save_load_roundtrip (s : ActionSequence) (path : String) (fs : FileStore) :
    ActionSequence.load_from_file path (s.save_to_file path fs).2 = Except.ok s ∧
    ∀ s2 : ActionSequence,
      ActionSequence.load_from_file path (s.save_to_file path fs).2 = Except.ok s2 →
      s2.name = s.name ∧ s2.description = s.description ∧
      s2.actions = s.actions ∧ s2.created_at = s.created_at ∧ s2.tags = s.tags := by
  have hload : ActionSequence.load_from_file path (s.save_to_file path fs).2 =
      Except.ok s := by
    simp [ActionSequence.save_to_file, ActionSequence.load_from_file,
      sequence_json_roundtrip]
  refine ⟨hload, ?_⟩
  intro s2 h2
  rw [hload] at h2
  obtain rfl : s = s2 := Except.ok.inj h2
  exact ⟨rfl, rfl, rfl, rfl, rfl⟩

/-! ### C8: dispatcher stop_recording postcondition -/

/-- C8. Whenever the stop_recording handler answers with success, the
response carries the stopped sequence's name, a sequence with that name
is in the library afterwards, and a subsequent list_sequences response
includes that name. -/
theorem stop_recording_dispatch (st : DaemonState)
    (h : (handle_stop_recording st).1.getField "status" = some (Json.str "success")) :
    ∃ name : String,
      (handle_stop_recording st).1.getField "sequence" = some (Json.str name) ∧
      (∃ seq ∈ (handle_stop_recording st).2.library.sequences, seq.name = name) ∧
      ∃ names : List Json,
        (handle_list_sequences (handle_stop_recording st).2).1.getField "sequences" =
          some (Json.arr names) ∧ Json.str name ∈ names := by
  rcases hstop : st.recorder.stop_recording with ⟨res, r⟩
  cases res with
  | error e =>
    exfalso
    simp [handle_stop_recording, hstop, Json.getField, List.lookup] at h
  | ok seq =>
    refine ⟨seq.name, ?_, ?_, ?_⟩
    · simp [handle_stop_recording, hstop, Json.getField, List.lookup]
    · refine ⟨seq, ?_, rfl⟩
      simp [handle_stop_recording, hstop, ActionLibrary.add_sequence]
    · refine ⟨((handle_stop_recording st).2.library.list_sequences).map Json.str, ?_, ?_⟩
      · simp [handle_list_sequences, Json.getField, List.lookup]
      · refine List.mem_map.mpr ⟨seq.name, ?_, rfl⟩
        simp [handle_stop_recording, hstop, ActionLibrary.add_sequence,
          ActionLibrary.list_sequences]

/-- Witness for C8: a daemon state whose recorder is mid-recording. -/
theorem stop_recording_dispatch_witness :
    ((handle_stop_recording
        { recorder := (ActionRecorder.new.start_recording "demo" "" "2024-01-01" 0).2,
          player := ActionPlayer.new,
          library := ActionLibrary.new "lib" }).1.getField "status" =
      some (Json.str "success")) ∧
    ∃ name : String,
      (handle_stop_recording
        { recorder := (ActionRecorder.new.start_recording "demo" "" "2024-01-01" 0).2,
          player := ActionPlayer.new,
          library := ActionLibrary.new "lib" }).1.getField "sequence" =
          some (Json.str name) ∧
      (∃ seq ∈ (handle_stop_recording
          { recorder := (ActionRecorder.new.start_recording "demo" "" "2024-01-01" 0).2,
            player := ActionPlayer.new,
            library := ActionLibrary.new "lib" }).2.library.sequences,
          seq.name = name) ∧
      ∃ names : List Json,
        (handle_list_sequences (handle_stop_recording
            { recorder := (ActionRecorder.new.start_recording "demo" "" "2024-01-01" 0).2,
              player := ActionPlayer.new,
              library := ActionLibrary.new "lib" }).2).1.getField "sequences" =
          some (Json.arr names) ∧ Json.str name ∈ names :=
  ⟨rfl,
   stop_recording_dispatch
     { recorder := (ActionRecorder.new.start_recording "demo" "" "2024-01-01" 0).2,
       player := ActionPlayer.new,
       library := ActionLibrary.new "lib" } rfl⟩

/-- Witness for C4 at a concrete sequence, path and file store. -/
theorem save_load_roundtrip_witness :
    (ActionSequence.load_from_file "seq.json"
        ((sampleSeq.save_to_file "seq.json" (fun _ => none)).2) =
      Except.ok sampleSeq) ∧
    ((ActionSequence.load_from_file "seq.json"
        ((sampleSeq.save_to_file "seq.json" (fun _ => none)).2) =
      Except.ok sampleSeq) ∧
     sampleSeq.name = sampleSeq.name ∧ sampleSeq.description = sampleSeq.description ∧
     sampleSeq.actions = sampleSeq.actions ∧ sampleSeq.created_at = sampleSeq.created_at ∧
     sampleSeq.tags = sampleSeq.tags) :=
  ⟨(save_load_roundtrip sampleSeq "seq.json" (fun _ => none)).1,
   (save_load_roundtrip sampleSeq "seq.json" (fun _ => none)).1,
   (save_load_roundtrip sampleSeq "seq.json" (fun _ => none)).2 sampleSeq
     (save_load_roundtrip sampleSeq "seq.json" (fun _ => none)).1⟩

end Casper
